/-
Verification of the asynchronous job-orchestration core of the book-reels
backend (FastAPI + Supabase).  Each definition is a shallow embedding of the
corresponding Python function, translated from backend/app:
  supabase_client.py  (create_gen_job, update_gen_job, mark_stale_jobs_failed,
                       _check_and_resume_or_fail_clips)
  routers/jobs.py     (submit_job, run_job, _upload_image_in_dict)
  routers/film.py     (run_film_generation, download_video signature)
  routers/film_resume.py (resume_clip_polling)
  core/imagen.py      (_ImageRateLimiter, _genai_generate_content)
  core/gemini.py      (generate_text retry loop)
  core/seedance.py    (generate_video poll loop)
  core/veo.py         (generate_video poll loop)
Times and delays are modelled as rationals; the database table as a list of
rows; each provider as a function from poll index to its reported answer.
-/
import Mathlib

/-! ## Python-value model

`gen_jobs.result` is a JSON object.  The orchestrator only ever reads scalar
fields from it, so a value is modelled as a scalar with Python truthiness. -/

inductive PyVal where
  | vNone
  | vStr (s : String)
  | vInt (n : Int)
  | vBool (b : Bool)
deriving DecidableEq, Repr

/-- Python truthiness of a scalar value. -/
def PyVal.truthy : PyVal → Bool
  | .vNone => false
  | .vStr s => s ≠ ""
  | .vInt n => n ≠ 0
  | .vBool b => b

/-- A JSON-object payload: association list from keys to scalar values. -/
abbrev Payload := List (String × PyVal)

/-- `p["k"]` lookup (first matching key), `None`-free form of `dict.get`. -/
def Payload.lookup (p : Payload) (k : String) : Option PyVal :=
  (List.find? (fun kv => kv.fst == k) p).map (fun kv => kv.snd)

/-- Python `k in p` on a dict payload. -/
def Payload.hasKey (p : Payload) (k : String) : Bool :=
  List.any p (fun kv => kv.fst == k)


/-! ## gen_jobs rows (supabase_client.py)

One row of the `gen_jobs` table.  `updated_at` is a timestamp (integer
seconds); `result` is `NULL` or a JSON payload. -/

structure GenJob where
  id : Nat
  generation_id : String
  job_type : String
  target_id : String
  status : String
  result : Option Payload
  error_message : Option String
  updated_at : Int
deriving DecidableEq, Repr

abbrev Table := List GenJob

/-- The duplicate check of `create_gen_job`: the first row matching the
dedup triple whose status is `"generating"`. -/
def find_generating (t : Table) (gid jt tid : String) : Option GenJob :=
  List.find? (fun j =>
    j.generation_id == gid && j.job_type == jt && j.target_id == tid &&
    j.status == "generating") t

/-- The `upsert(..., on_conflict="generation_id,job_type,target_id")` step of
`create_gen_job`: if some row already has the triple, that row is overwritten
in place (same primary key), otherwise a fresh row is appended. -/
def upsert_gen_job (t : Table) (gid jt tid : String) (fresh : Nat) (now : Int) :
    GenJob × Table :=
  match List.find? (fun j =>
      j.generation_id == gid && j.job_type == jt && j.target_id == tid) t with
  | some j0 =>
      let j := { j0 with
        status := "generating"
        result := none
        error_message := none
        updated_at := now }
      (j, List.map (fun r => if r.id == j0.id then j else r) t)
  | none =>
      let j : GenJob :=
        { id := fresh, generation_id := gid, job_type := jt, target_id := tid,
          status := "generating", result := none, error_message := none,
          updated_at := now }
      (j, t ++ [j])

structure CreateResult where
  row : GenJob
  already_generating : Bool
  table : Table
deriving DecidableEq

/-- `create_gen_job(generation_id, job_type, target_id)` from
supabase_client.py, fault-free store: if a `"generating"` row exists for the
triple it is returned as-is with `_already_generating=True` and no write
happens; otherwise the row for the triple is upserted with status
`"generating"`.  (The Python retry wrapper around store errors is outside the
fault-free model.) -/
def create_gen_job (t : Table) (gid jt tid : String) (fresh : Nat) (now : Int) :
    CreateResult :=
  match find_generating t gid jt tid with
  | some j => ⟨j, true, t⟩
  | none =>
      let r := upsert_gen_job t gid jt tid fresh now
      ⟨r.fst, false, r.snd⟩

structure SubmitResult where
  job_id : Nat
  scheduled : Bool
  table : Table
deriving DecidableEq

/-- `submit_job` from routers/jobs.py: create-or-get, then schedule the
background task only when the row was not already generating. -/
def submit_job (t : Table) (gid jt tid : String) (fresh : Nat) (now : Int) :
    SubmitResult :=
  let c := create_gen_job t gid jt tid fresh now
  ⟨c.row.id, !c.already_generating, c.table⟩

/-- `update_gen_job(job_id, status, result, error)` from supabase_client.py:
unconditionally updates the matching row; `result`/`error` columns are only
written when the argument is non-`None`. -/
def update_gen_job (t : Table) (job_id : Nat) (status : String)
    (result : Option Payload) (error : Option String) (now : Int) : Table :=
  List.map (fun j =>
    if j.id == job_id then
      { j with
        status := status
        result := match result with | some r => some r | none => j.result
        error_message := match error with | some e => some e | none => j.error_message
        updated_at := now }
    else j) t

/-! ## run_job and result-image upload (routers/jobs.py)

`run_job` runs a handler, rewrites `image_base64` fields of the result dict
into storage URLs, then performs a single terminal `update_gen_job`.  The
dicts handled by `_upload_image_in_dict` are modelled by their image fields;
nested occurrences in `upload_result_images` all go through the same helper. -/

structure ResultDict where
  image_base64 : Option String
  image_url : Option String
  mime_type : String
deriving DecidableEq, Repr

/-- `_upload_image_in_dict` from routers/jobs.py: if the dict has a truthy
`image_base64`, try the upload; on success replace it with `image_url`, on
any exception keep the base64 as fallback and swallow the error. -/
def upload_image_in_dict (d : ResultDict) (upload : Except String String) :
    ResultDict :=
  match d.image_base64 with
  | none => d
  | some b =>
      if b == "" then d
      else
        match upload with
        | .ok url => { d with image_url := some url, image_base64 := none }
        | .error _ => d

/-- One store write performed by a background task. -/
structure StoreWrite where
  job_id : Nat
  status : String
  result : Option ResultDict
  error : Option String
deriving DecidableEq, Repr

def StoreWrite.isTerminal (w : StoreWrite) : Bool :=
  w.status == "completed" || w.status == "failed"

/-- The write trace of `run_job` from routers/jobs.py: handler success leads
to one `completed` write carrying the (image-uploaded) result; any handler
exception leads to one `failed` write carrying the error message. -/
def run_job_writes (job_id : Nat) (handler : Except String ResultDict)
    (upload : Except String String) : List StoreWrite :=
  match handler with
  | .ok r => [⟨job_id, "completed", some (upload_image_in_dict r upload), none⟩]
  | .error e => [⟨job_id, "failed", none, some e⟩]

/-! ## Startup recovery (supabase_client.py, film_resume.py, main.py)

The Atlas Cloud provider is modelled as a function from the stored
`prediction_id` value to its reported poll answer: either a parsed response
carrying `data.status` / `data.error` / `data.outputs`, or a raised error
(HTTP failure, timeout, malformed body). -/

inductive AtlasAnswer where
  | ok (status : String) (error : Option String) (outputs : List String)
  | raised (msg : String)
deriving DecidableEq, Repr

/-- Row-level effect of the inline `update({"status": "failed", ...})` calls
of startup recovery: only `status`, `error_message` and `updated_at` change. -/
def fail_row (msg : String) (now : Int) (j : GenJob) : GenJob :=
  { j with status := "failed", error_message := some msg, updated_at := now }

/-- Mark one job id failed: the `.update(...).eq("id", job_id)` pattern used
by `mark_stale_jobs_failed` and `_check_and_resume_or_fail_clips`. -/
def fail_job (t : Table) (job_id : Nat) (msg : String) (now : Int) : Table :=
  List.map (fun j => if j.id == job_id then fail_row msg now j else j) t

/-- What `_check_and_resume_or_fail_clips` does for one stale clip job
(supabase_client.py lines 193-256).  Decisions are made from the queried
snapshot `job`, not from the current table contents. -/
def check_clip_step (provider : PyVal → AtlasAnswer) (now : Int)
    (t : Table) (job : GenJob) : Table :=
  let result := job.result.getD []
  let pid := Payload.lookup result "prediction_id"
  if !(pid.getD .vNone).truthy then
    fail_job t job.id "No prediction_id found for resume" now
  else
    match provider (pid.getD .vNone) with
    | .raised e =>
        fail_job t job.id
          ("Interrupted by server restart (could not check Atlas: " ++
            String.take e 100 ++ ")") now
    | .ok st err _ =>
        if st == "completed" || st == "succeeded" then
          t  -- leave as "generating" for resume_interrupted_videos()
        else if st == "failed" then
          fail_job t job.id
            ("Atlas Cloud: " ++ err.getD "Generation failed on Atlas Cloud") now
        else
          fail_job t job.id
            "Interrupted by server restart (still generating on Atlas after >5min)"
            now

/-- `_check_and_resume_or_fail_clips(clip_jobs)`: fold the per-job check over
the snapshot list. -/
def check_and_resume_or_fail_clips (provider : PyVal → AtlasAnswer) (now : Int)
    (t : Table) (clip_jobs : List GenJob) : Table :=
  List.foldl (check_clip_step provider now) t clip_jobs

/-- The partition test of `mark_stale_jobs_failed`:
`job.get("job_type") == "clip" and job.get("result") and "prediction_id" in
job.get("result", {})` (an empty dict is falsy, so this is equivalent to the
key being present in a non-`None` result). -/
def is_resumable_clip (j : GenJob) : Bool :=
  j.job_type == "clip" &&
    (match j.result with
     | some p => Payload.hasKey p "prediction_id"
     | none => false)

/-- `mark_stale_jobs_failed(cutoff_minutes)` from supabase_client.py: select
jobs stuck in `"generating"` older than the cutoff; fail all non-resumable
ones immediately with "Interrupted by server restart"; check at most the
first 10 resumable clip jobs against Atlas Cloud. -/
def mark_stale_jobs_failed (t : Table) (provider : PyVal → AtlasAnswer)
    (now cutoff : Int) : Table :=
  let stale := List.filter
    (fun j => j.status == "generating" && decide (j.updated_at < cutoff)) t
  if stale.isEmpty then t
  else
    let clip_jobs := List.filter (fun j => is_resumable_clip j) stale
    let jobs_to_fail := List.filter (fun j => !is_resumable_clip j) stale
    let t1 := List.foldl
      (fun acc j => fail_job acc j.id "Interrupted by server restart" now)
      t jobs_to_fail
    check_and_resume_or_fail_clips provider now t1 (List.take 10 clip_jobs)

/-! ## resume_clip_polling (film_resume.py)

`resume_clip_polling` polls Atlas and, on completion, calls
`download_video(atlas_url, clip_id, scene_number, generation_id=...)`
expecting a `(video_path, storage_url)` pair.  The callee it imports is
the `download_video(video_url, film_id, shot_number) -> str` of routers/film.py,
so Python call binding is part of the model. -/

/-- Parameter list of `download_video` as defined in routers/film.py. -/
def film_download_video_params : List String :=
  ["video_url", "film_id", "shot_number"]

/-- Python call binding succeeds iff the positional arguments fit and every
keyword argument names a parameter not already bound positionally (the callee
has no `**kwargs`). -/
def call_binds_ok (params : List String) (npos : Nat) (kwargs : List String) :
    Bool :=
  decide (npos ≤ params.length) &&
    List.all kwargs (fun k => List.contains (List.drop npos params) k)

/-- Message of the `TypeError` raised when binding the resume call. -/
def download_video_type_error : String :=
  "download_video() got an unexpected keyword argument generation_id"

/-- The single terminal write (if any) that one run of `resume_clip_polling`
performs on its job. -/
inductive ResumeOutcome where
  | wrote (status : String) (error : Option String) (result_video_url : Option String)
  | noWrite
deriving DecidableEq, Repr

/-- Poll interval and timeout shared by seedance.py and film_resume.py. -/
def POLL_INTERVAL_SECONDS : Nat := 3

def POLL_TIMEOUT_SECONDS : Nat := 600

/-- Loop body of `resume_clip_polling` (film_resume.py lines 96-151),
structurally-recursive on a fuel bound that dominates the `elapsed <
POLL_TIMEOUT_SECONDS` guard.  `polls` indexes the provider answers in order.
On a completed status the download call is attempted: if Python call binding
fails, the `TypeError` is caught by the outer `except` and the job is failed
with a "Resume polling failed" message; only a successful binding would reach
the completed write. -/
def resume_clip_polling_go (statuses : Nat → AtlasAnswer) :
    Nat → Nat → Nat → ResumeOutcome
  | 0, _, _ => .noWrite
  | fuel + 1, elapsed, polls =>
      if elapsed < POLL_TIMEOUT_SECONDS then
        match statuses polls with
        | .raised e => .wrote "failed" (some ("Resume polling failed: " ++ e)) none
        | .ok st err outs =>
            if st == "completed" || st == "succeeded" then
              if call_binds_ok film_download_video_params 3 ["generation_id"] then
                .wrote "completed" none (some (outs.headD ""))
              else
                .wrote "failed"
                  (some ("Resume polling failed: " ++ download_video_type_error))
                  none
            else if st == "failed" then
              .wrote "failed" (some (err.getD "Generation failed")) none
            else
              resume_clip_polling_go statuses fuel
                (elapsed + POLL_INTERVAL_SECONDS) (polls + 1)
      else .noWrite

/-- One run of `resume_clip_polling` against a provider answer stream; the
while loop performs at most 200 polls before falling through (with no write,
the job is left as it was). -/
def resume_clip_polling (statuses : Nat → AtlasAnswer) : ResumeOutcome :=
  resume_clip_polling_go statuses 200 0 0

/-! ## Film generation (routers/film.py)

`run_film_generation` launches one task per beat with `asyncio.gather`,
collects per-shot failures, sorts the surviving shots by beat number and
assembles them.  A beat is modelled by its number; the work of
`process_single_shot` (scene refs, video generation with retry, download) by
an outcome function from beats to either a downloaded video path or the
exception message; `assemble_videos` by an outcome function from the ordered
path list to either `(output_path, duration)` or an exception message.
Because shots complete in arbitrary order, the order in which successful
shots are appended to `completed_shots` is an arbitrary permutation
`arrivals` of the processed beats. -/

structure Beat where
  number : Nat
deriving DecidableEq, Repr

structure CompletedShot where
  number : Nat
  video_path : String
deriving DecidableEq, Repr

/-- The comparison key of `job.completed_shots.sort(key=lambda s: s.number)`. -/
def shot_le (a b : CompletedShot) : Prop := a.number ≤ b.number

instance : DecidableRel shot_le := fun a b => Nat.decLe a.number b.number

instance : IsTotal CompletedShot shot_le := ⟨fun a b => Nat.le_total a.number b.number⟩

instance : IsTrans CompletedShot shot_le := ⟨fun _ _ _ h1 h2 => Nat.le_trans h1 h2⟩

/-- In-memory `FilmJob` state, restricted to the fields `run_film_generation`
reads or writes. -/
structure FilmJobState where
  total_shots : Nat
  current_shot : Nat
  phase : String
  completed_shots : List CompletedShot
  final_video_path : Option String
  status : String
  error_message : Option String
deriving DecidableEq, Repr

/-- `MAX_SHOTS_FOR_TESTING = 3` (routers/film.py line 29): beats beyond the
first three are silently dropped and `total_shots` is overwritten. -/
def MAX_SHOTS_FOR_TESTING : Option Nat := some 3

/-- The fresh `FilmJob` built by the `/film/generate` endpoint. -/
def film_job_init (total : Nat) : FilmJobState :=
  ⟨total, 0, "keyframe", [], none, "generating", none⟩

/-- The `beats_to_process` truncation of `run_film_generation`. -/
def film_beats_to_process (beats : List Beat) : List Beat :=
  match MAX_SHOTS_FOR_TESTING with
  | some m => List.take m beats
  | none => beats

/-- The `completed_shots` list as appended by the gathered
`process_single_shot` tasks, in arrival order: one `CompletedShot` per
successful shot. -/
def film_completed0 (arrivals : List Beat)
    (shot_work : Beat → Except String String) : List CompletedShot :=
  List.filterMap
    (fun b => match shot_work b with
      | .ok p => some (⟨b.number, p⟩ : CompletedShot)
      | .error _ => none) arrivals

/-- The `failures` list built after `asyncio.gather(..., return_exceptions=
True)`: `(beat number, exception text)` per failed shot, in beat order. -/
def film_failures (beats_to_process : List Beat)
    (shot_work : Beat → Except String String) : List (Nat × String) :=
  List.filterMap
    (fun b => match shot_work b with
      | .ok _ => none
      | .error e => some (b.number, e)) beats_to_process

/-- `run_film_generation(film_id)` from routers/film.py (lines 422-493),
parameterised by the per-shot work outcome, the arrival (completion) order of
the gathered tasks, and the assembly outcome.  Returns the final job state
together with the `failures` list that the code builds and prints (it is
never stored on the job). -/
def run_film_generation (beats arrivals : List Beat)
    (shot_work : Beat → Except String String)
    (assemble : List String → Except String (String × Nat))
    (total0 : Nat) : FilmJobState × List (Nat × String) :=
  let job0 := film_job_init total0
  let beats_to_process := film_beats_to_process beats
  let job1 := { job0 with total_shots := beats_to_process.length, phase := "filming" }
  let completed0 := film_completed0 arrivals shot_work
  let job2 := { job1 with
    completed_shots := completed0
    current_shot := completed0.length }
  let failures := film_failures beats_to_process shot_work
  if failures.length ≠ 0 ∧ failures.length = beats_to_process.length then
    -- `raise Exception(f"All shots failed. {failed_shots}")`, caught by the
    -- outer handler which sets status/error_message
    ({ job2 with
        status := "failed"
        error_message := some ("All shots failed. " ++
          String.intercalate ", " (List.map
            (fun p => "Shot " ++ toString p.1 ++ ": " ++ p.2) failures)) },
      failures)
  else
    let sorted := List.insertionSort shot_le job2.completed_shots
    let job3 := { job2 with completed_shots := sorted, phase := "assembling" }
    match assemble (List.map (fun s => s.video_path) sorted) with
    | .ok (path, _) =>
        ({ job3 with final_video_path := some path, status := "ready" }, failures)
    | .error e =>
        ({ job3 with status := "failed", error_message := some e }, failures)

/-! ## Retry loops (core/gemini.py, core/imagen.py)

A wrapped external call is modelled as a function from attempt index to the
outcome of that attempt.  Each run records how many times the wrapped function was
invoked and, for every retry, the attempt index it followed and the delay
slept before the next invocation. -/

/-- Does `hay` start with `needle`? -/
def chars_start_with : List Char → List Char → Bool
  | _, [] => true
  | [], _ :: _ => false
  | h :: hs, n :: ns => h == n && chars_start_with hs ns

/-- Does `hay` contain `needle` as a contiguous run? -/
def chars_contain : List Char → List Char → Bool
  | [], needle => needle.isEmpty
  | h :: hs, needle => chars_start_with (h :: hs) needle || chars_contain hs needle

/-- Substring test backing the `"429" in error_str` style checks. -/
def str_contains (hay needle : String) : Bool :=
  chars_contain hay.toList needle.toList

/-- `MAX_RETRIES = 3` in both core/gemini.py and core/imagen.py. -/
def MAX_RETRIES : Nat := 3

/-- `RETRY_BASE_DELAY = 5` (seconds) in both modules. -/
def RETRY_BASE_DELAY : ℚ := 5

/-- Retryable-error test of core/gemini.py `generate_text`. -/
def gemini_is_retryable (e : String) : Bool :=
  str_contains e "429" || str_contains e "RESOURCE_EXHAUSTED" ||
    str_contains e "503" || str_contains e "UNAVAILABLE"

/-- `_TRANSIENT_MARKERS` of core/imagen.py. -/
def TRANSIENT_MARKERS : List String :=
  ["429", "503", "500", "502", "504", "UNAVAILABLE", "RESOURCE_EXHAUSTED",
   "DEADLINE_EXCEEDED", "INTERNAL", "timed out"]

/-- `_is_transient` of core/imagen.py: markers matched against the
upper-cased error string. -/
def imagen_is_transient (e : String) : Bool :=
  List.any TRANSIENT_MARKERS (fun m => str_contains e.toUpper m)

/-- Trace of one retry-loop run: number of invocations of the wrapped
function, the `(attempt, delay)` slept before each retry, and the final
outcome. -/
structure RetryRun where
  calls : Nat
  waits : List (Nat × ℚ)
  outcome : Except String String
deriving Repr

/-- Outcome of one attempt of the gemini text call (no per-call timeout). -/
inductive TextAttempt where
  | ok (s : String)
  | exc (msg : String)
deriving DecidableEq, Repr

/-- Retry loop of `generate_text` (core/gemini.py lines 48-64): retry on
retryable errors with delay exactly `base_delay * 2 ** attempt`, re-raise
otherwise; structural fuel dominates the `attempt < max_retries` guard. -/
def generate_text_go (outcomes : Nat → TextAttempt) (maxRetries : Nat)
    (baseDelay : ℚ) : Nat → Nat → List (Nat × ℚ) → RetryRun
  | 0, attempt, acc => ⟨attempt, acc.reverse, .error "loop exhausted"⟩
  | fuel + 1, attempt, acc =>
      match outcomes attempt with
      | .ok s => ⟨attempt + 1, acc.reverse, .ok s⟩
      | .exc m =>
          if gemini_is_retryable m ∧ attempt < maxRetries then
            generate_text_go outcomes maxRetries baseDelay fuel (attempt + 1)
              ((attempt, baseDelay * 2 ^ attempt) :: acc)
          else ⟨attempt + 1, acc.reverse, .error m⟩

/-- One run of the `generate_text` retry loop. -/
def generate_text_run (outcomes : Nat → TextAttempt) (maxRetries : Nat)
    (baseDelay : ℚ) : RetryRun :=
  generate_text_go outcomes maxRetries baseDelay (maxRetries + 1) 0 []

/-- Outcome of one attempt of the Google image call inside
`asyncio.wait_for(..., timeout=PER_CALL_TIMEOUT)`: success, a timeout of the
attempt, or an exception. -/
inductive GenaiAttempt where
  | ok (image : String)
  | timedOut
  | exc (msg : String)
deriving DecidableEq, Repr

/-- `str(TimeoutError(...))` recorded as `last_error` on a timed-out attempt
(PER_CALL_TIMEOUT = 60). -/
def genai_timeout_message : String := "Google image gen timed out after 60s"

/-- Retry loop of `_genai_generate_content` (core/imagen.py lines 237-267).
A timed-out attempt retries immediately (`continue` with no sleep, recorded
as a zero delay); a transient exception sleeps
`RETRY_BASE_DELAY * 2 ** attempt + random.uniform(0, 2)`; a non-transient
exception breaks out.  Returns the loop result plus the last error. -/
def genai_loop_go (outcomes : Nat → GenaiAttempt) (jitter : Nat → ℚ)
    (maxRetries : Nat) (baseDelay : ℚ) :
    Nat → Nat → List (Nat × ℚ) → RetryRun
  | 0, attempt, acc => ⟨attempt, acc.reverse, .error "loop exhausted"⟩
  | fuel + 1, attempt, acc =>
      match outcomes attempt with
      | .ok img => ⟨attempt + 1, acc.reverse, .ok img⟩
      | .timedOut =>
          if attempt < maxRetries then
            genai_loop_go outcomes jitter maxRetries baseDelay fuel
              (attempt + 1) ((attempt, 0) :: acc)
          else ⟨attempt + 1, acc.reverse, .error genai_timeout_message⟩
      | .exc m =>
          if imagen_is_transient m ∧ attempt < maxRetries then
            genai_loop_go outcomes jitter maxRetries baseDelay fuel
              (attempt + 1) ((attempt, baseDelay * 2 ^ attempt + jitter attempt) :: acc)
          else ⟨attempt + 1, acc.reverse, .error m⟩

/-- `_genai_generate_content` (core/imagen.py lines 218-279): the retry loop
followed by the OpenAI fallback, which fires only for a transient last error
when a fallback prompt and an OpenAI client exist; a failing fallback
re-raises the Google error.  `calls` counts invocations of the wrapped
Google call only. -/
def genai_generate_content_run (outcomes : Nat → GenaiAttempt)
    (jitter : Nat → ℚ) (maxRetries : Nat) (baseDelay : ℚ)
    (fallback_prompt : Option String) (openai_available : Bool)
    (openai_result : Except String String) : RetryRun :=
  let loopRes := genai_loop_go outcomes jitter maxRetries baseDelay
    (maxRetries + 1) 0 []
  match loopRes.outcome with
  | .ok img => { loopRes with outcome := .ok img }
  | .error last =>
      if imagen_is_transient last ∧ fallback_prompt.isSome ∧ openai_available then
        match openai_result with
        | .ok img => { loopRes with outcome := .ok img }
        | .error _ => { loopRes with outcome := .error last }
      else { loopRes with outcome := .error last }

/-! ## Poll loops (core/seedance.py, core/veo.py) -/

/-- Result of the Seedance `generate_video` poll loop. -/
inductive SeedanceResult where
  | video (url : String)
  | genFailed (msg : String)
  | httpRaised (msg : String)
  | timedOut
deriving DecidableEq, Repr

/-- Trace of one Seedance poll loop: result, number of polls issued, and
total seconds slept. -/
structure SeedanceRun where
  result : SeedanceResult
  polls : Nat
  slept : Nat
deriving DecidableEq, Repr

/-- Poll loop of Seedance `generate_video` (core/seedance.py lines 92-129):
`while elapsed < POLL_TIMEOUT_SECONDS: sleep(POLL_INTERVAL_SECONDS); poll`,
ending in `raise TimeoutError` when the budget is exhausted; structural fuel
dominates the elapsed guard. -/
def seedance_poll_go (statuses : Nat → AtlasAnswer) :
    Nat → Nat → Nat → Nat → SeedanceRun
  | 0, _, polls, slept => ⟨.timedOut, polls, slept⟩
  | fuel + 1, elapsed, polls, slept =>
      if elapsed < POLL_TIMEOUT_SECONDS then
        let slept2 := slept + POLL_INTERVAL_SECONDS
        match statuses polls with
        | .raised m => ⟨.httpRaised m, polls + 1, slept2⟩
        | .ok st err outs =>
            if st == "completed" || st == "succeeded" then
              ⟨.video (outs.headD ""), polls + 1, slept2⟩
            else if st == "failed" then
              ⟨.genFailed ("Seedance generation failed: " ++
                err.getD "Generation failed"), polls + 1, slept2⟩
            else
              seedance_poll_go statuses fuel (elapsed + POLL_INTERVAL_SECONDS)
                (polls + 1) slept2
      else ⟨.timedOut, polls, slept⟩

/-- One Seedance poll loop run (200 iterations dominate `600 / 3`). -/
def seedance_poll (statuses : Nat → AtlasAnswer) : SeedanceRun :=
  seedance_poll_go statuses 200 0 0 0

/-- An Atlas answer on which the Seedance loop keeps polling. -/
def atlas_nonterminal : AtlasAnswer → Bool
  | .raised _ => false
  | .ok st _ _ => !(st == "completed" || st == "succeeded" || st == "failed")

/-- Poll loop of Veo `generate_video` (core/veo.py lines 91-94):
`while not operation.done: sleep(poll_interval); operation = get(operation)`.
`done i` is the done-flag reported at the i-th check.  `veo_poll_go done
fuel i` returns the check index at which the loop exits, when it does so
within `fuel` checks. -/
def veo_poll_go (done : Nat → Bool) : Nat → Nat → Option Nat
  | 0, _ => none
  | fuel + 1, i => if done i then some i else veo_poll_go done fuel (i + 1)

/-- The Veo poll loop terminates within some number of checks.  There is no
timeout in the source: this holds only when the provider eventually reports
the operation done. -/
def veo_poll_terminates (done : Nat → Bool) : Prop :=
  ∃ fuel, (veo_poll_go done fuel 0).isSome

/-! ## Rate limiter (core/imagen.py `_ImageRateLimiter`)

`__aenter__` acquires a semaphore slot, then — serialized by an asyncio lock
— reads the clock, sleeps out the remaining pacing interval and records the
new `_last_call`.  Because the pacing section is under the lock, admissions
are totally ordered; an admission event carries the two clock readings of its
critical section: `now` (read on entering the lock) and `t_end` (read after
the optional sleep, stored as `_last_call`, the admitted call start).
Validity of an event trace encodes exactly the runtime guarantees: the
semaphore admits only when a slot is free, the event-loop clock is monotonic
across the lock handoff, and `asyncio.sleep(wait)` sleeps at least `wait`. -/

structure RLConfig where
  max_concurrent : Nat
  ipm : Nat
deriving DecidableEq, Repr

/-- `self._interval = 60.0 / max(ipm, 1)`. -/
def rl_interval (cfg : RLConfig) : ℚ := 60 / (max cfg.ipm 1 : ℕ)

structure RLState where
  sem_avail : Nat
  holders : Nat
  last_call : ℚ
  starts : List ℚ
deriving DecidableEq, Repr

/-- Fresh limiter: full semaphore, `_last_call = 0.0`, no admitted starts. -/
def rl_init (cfg : RLConfig) : RLState :=
  ⟨cfg.max_concurrent, 0, 0, []⟩

inductive RLEvent where
  | acq (now t_end : ℚ)
  | rel
deriving DecidableEq, Repr

/-- `wait = self._interval - (now - self._last_call)`. -/
def rl_wait (cfg : RLConfig) (s : RLState) (now : ℚ) : ℚ :=
  rl_interval cfg - (now - s.last_call)

/-- Effect of one event: `__aenter__` consumes a slot and records the call
start; `__aexit__` releases the slot. -/
def rl_step (s : RLState) : RLEvent → RLState
  | .acq _ t_end =>
      ⟨s.sem_avail - 1, s.holders + 1, t_end, t_end :: s.starts⟩
  | .rel => ⟨s.sem_avail + 1, s.holders - 1, s.last_call, s.starts⟩

/-- Runtime validity of one event in a state (see section comment). -/
def rl_event_ok (cfg : RLConfig) (s : RLState) : RLEvent → Bool
  | .acq now t_end =>
      decide (0 < s.sem_avail) && decide (s.last_call ≤ now) &&
      decide (now ≤ t_end) &&
      (!decide (0 < rl_wait cfg s now) || decide (now + rl_wait cfg s now ≤ t_end))
  | .rel => decide (0 < s.holders)

def rl_run (cfg : RLConfig) (s : RLState) : List RLEvent → RLState
  | [] => s
  | e :: es => rl_run cfg (rl_step s e) es

/-- A whole trace is valid from a state. -/
def rl_valid (cfg : RLConfig) (s : RLState) : List RLEvent → Bool
  | [] => true
  | e :: es => rl_event_ok cfg s e && rl_valid cfg (rl_step s e) es

/-- Row-level form of the `mark_stale_jobs_failed` bulk-fail fold: fail the
row iff its id occurs among the listed jobs. -/
def fail_if_listed (L : List GenJob) (msg : String) (now : Int) (r : GenJob) :
    GenJob :=
  if L.any (fun j => r.id == j.id) then fail_row msg now r else r

/-! ## Claim theorems -/

/-- C10: if uploading an embedded image raises, `_upload_image_in_dict`
swallows the failure and returns the dict unchanged — `image_base64` intact,
no `image_url` set — and `run_job` still performs its single `completed`
write; an upload failure alone never produces a `failed` write. -/
theorem C10_upload_failure_swallowed (job_id : Nat) (d : ResultDict)
    (b e : String) (hb : d.image_base64 = some b) (hne : b ≠ "")
    (hurl : d.image_url = none) :
    upload_image_in_dict d (.error e) = d ∧
    (upload_image_in_dict d (.error e)).image_base64 = some b ∧
    (upload_image_in_dict d (.error e)).image_url = none ∧
    run_job_writes job_id (.ok d) (.error e) =
      [⟨job_id, "completed", some d, none⟩] := by
  have h1 : upload_image_in_dict d (.error e) = d := by
    unfold upload_image_in_dict
    rw [hb]
    simp [hne]
  refine ⟨h1, ?_, ?_, ?_⟩
  · rw [h1, hb]
  · rw [h1, hurl]
  · simp [run_job_writes, h1]

/-- C10 witness: a concrete dict with an embedded image whose upload raises. -/
theorem C10_witness :
    upload_image_in_dict ⟨some "QUJD", none, "image/png"⟩ (.error "boom") =
      ⟨some "QUJD", none, "image/png"⟩ ∧
    (upload_image_in_dict ⟨some "QUJD", none, "image/png"⟩ (.error "boom")).image_base64 =
      some "QUJD" ∧
    (upload_image_in_dict ⟨some "QUJD", none, "image/png"⟩ (.error "boom")).image_url =
      none ∧
    run_job_writes 7 (.ok ⟨some "QUJD", none, "image/png"⟩) (.error "boom") =
      [⟨7, "completed", some ⟨some "QUJD", none, "image/png"⟩, none⟩] :=
  C10_upload_failure_swallowed 7 ⟨some "QUJD", none, "image/png"⟩ "QUJD" "boom"
    rfl (by decide) rfl

/-- C8 counterexample: the store does not reject or no-op a second terminal
write.  On a table whose only job is already `"completed"`, `update_gen_job`
with `"failed"` simply overwrites the terminal status. -/
theorem C8_counterexample_store_overwrites :
    (List.map GenJob.status [(⟨1, "g1", "script", "", "completed", none, none, 0⟩ : GenJob)]) =
      ["completed"] ∧
    List.map GenJob.status
      (update_gen_job [⟨1, "g1", "script", "", "completed", none, none, 0⟩]
        1 "failed" none (some "second terminal write") 5) = ["failed"] := by
  decide

/-- C8 (amended): each run of the scheduled task `run_job` performs exactly
one terminal store write — `completed` with the result on success, `failed`
with the error otherwise — but `update_gen_job` applies any status
unconditionally to the matching row, so the store itself does not reject or
no-op a second terminal write. -/
theorem C8_single_terminal_write_per_run
    (job_id : Nat) (handler : Except String ResultDict)
    (upload : Except String String) (t : Table) (j : GenJob) (st : String)
    (r : Option Payload) (e : Option String) (now : Int) (hj : j ∈ t) :
    List.countP (fun w => w.isTerminal) (run_job_writes job_id handler upload) = 1 ∧
    (∀ w ∈ run_job_writes job_id handler upload,
       (∃ d, handler = .ok d ∧ w.status = "completed" ∧
          w.result = some (upload_image_in_dict d upload)) ∨
       (∃ m, handler = .error m ∧ w.status = "failed" ∧ w.error = some m)) ∧
    { j with
      status := st
      result := match r with | some p => some p | none => j.result
      error_message := match e with | some m => some m | none => j.error_message
      updated_at := now } ∈ update_gen_job t j.id st r e now := by
  refine ⟨?_, ?_, ?_⟩
  · cases handler with
    | ok d => simp [run_job_writes, List.countP, List.countP.go, StoreWrite.isTerminal]
    | error m => simp [run_job_writes, List.countP, List.countP.go, StoreWrite.isTerminal]
  · intro w hw
    cases handler with
    | ok d =>
        left
        refine ⟨d, rfl, ?_, ?_⟩ <;>
          · simp only [run_job_writes, List.mem_singleton] at hw
            rw [hw]
    | error m =>
        right
        refine ⟨m, rfl, ?_, ?_⟩ <;>
          · simp only [run_job_writes, List.mem_singleton] at hw
            rw [hw]
  · unfold update_gen_job
    have := List.mem_map_of_mem (fun j' : GenJob =>
      if j'.id == j.id then
        { j' with
          status := st
          result := match r with | some p => some p | none => j'.result
          error_message := match e with | some m => some m | none => j'.error_message
          updated_at := now }
      else j') hj
    simpa using this

/-- C8 witness: concrete failed run and a concrete second terminal write. -/
theorem C8_witness :
    List.countP (fun w => w.isTerminal)
      (run_job_writes 3 (.error "safety filter") (.error "x")) = 1 ∧
    ({ (⟨1, "g1", "script", "", "completed", none, none, 0⟩ : GenJob) with
      status := "failed"
      result := match (none : Option Payload) with | some p => some p | none => none
      error_message := match (some "again" : Option String) with
        | some m => some m | none => none
      updated_at := (9 : Int) } : GenJob) ∈
      update_gen_job [⟨1, "g1", "script", "", "completed", none, none, 0⟩]
        1 "failed" none (some "again") 9 :=
  ⟨(C8_single_terminal_write_per_run 3 (.error "safety filter") (.error "x")
      [⟨1, "g1", "script", "", "completed", none, none, 0⟩]
      ⟨1, "g1", "script", "", "completed", none, none, 0⟩
      "failed" none (some "again") 9 (by decide)).1,
   (C8_single_terminal_write_per_run 3 (.error "safety filter") (.error "x")
      [⟨1, "g1", "script", "", "completed", none, none, 0⟩]
      ⟨1, "g1", "script", "", "completed", none, none, 0⟩
      "failed" none (some "again") 9 (by decide)).2.2⟩

/-- C1 counterexample: when the only row for the dedup triple is terminal
(`"completed"`), the "otherwise" branch of `create_gen_job` does not insert a
new row — the upsert overwrites the existing row in place (same primary key,
table size unchanged). -/
theorem C1_counterexample_upsert_not_insert :
    find_generating [⟨1, "g1", "clip", "7", "completed", none, some "old", 0⟩]
      "g1" "clip" "7" = none ∧
    (create_gen_job [⟨1, "g1", "clip", "7", "completed", none, some "old", 0⟩]
      "g1" "clip" "7" 99 10).table.length = 1 ∧
    (create_gen_job [⟨1, "g1", "clip", "7", "completed", none, some "old", 0⟩]
      "g1" "clip" "7" 99 10).row.id = 1 := by
  decide

/-- C1 (amended): if a `"generating"` job already exists for the triple,
`create_gen_job` returns it marked already-running with no write, and
`submit_job` returns its id without scheduling; otherwise the returned row
has status `"generating"` with cleared result/error and the background task
is scheduled, where the row is freshly appended when no row has the triple
and otherwise the existing (terminal) row is overwritten in place rather
than a new row inserted. -/
theorem C1_dedup_and_upsert (t : Table) (gid jt tid : String) (fresh : Nat)
    (now : Int) :
    (∀ j, find_generating t gid jt tid = some j →
       create_gen_job t gid jt tid fresh now = ⟨j, true, t⟩ ∧
       submit_job t gid jt tid fresh now = ⟨j.id, false, t⟩) ∧
    (find_generating t gid jt tid = none →
       (create_gen_job t gid jt tid fresh now).already_generating = false ∧
       (create_gen_job t gid jt tid fresh now).row.status = "generating" ∧
       (create_gen_job t gid jt tid fresh now).row.result = none ∧
       (create_gen_job t gid jt tid fresh now).row.error_message = none ∧
       (submit_job t gid jt tid fresh now).scheduled = true ∧
       ((List.find? (fun j => j.generation_id == gid && j.job_type == jt &&
            j.target_id == tid) t = none ∧
          (create_gen_job t gid jt tid fresh now).table =
            t ++ [(create_gen_job t gid jt tid fresh now).row] ∧
          (create_gen_job t gid jt tid fresh now).row.id = fresh) ∨
        (∃ j0, List.find? (fun j => j.generation_id == gid && j.job_type == jt &&
            j.target_id == tid) t = some j0 ∧
          (create_gen_job t gid jt tid fresh now).row.id = j0.id ∧
          (create_gen_job t gid jt tid fresh now).table.length = t.length))) := by
  constructor
  · intro j h
    constructor
    · unfold create_gen_job
      rw [h]
    · simp [submit_job, create_gen_job, h]
  · intro h
    cases hf : List.find? (fun j => j.generation_id == gid && j.job_type == jt &&
        j.target_id == tid) t with
    | none =>
        refine ⟨?_, ?_, ?_, ?_, ?_, Or.inl ⟨rfl, ?_, ?_⟩⟩ <;>
          simp [create_gen_job, submit_job, upsert_gen_job, h, hf]
    | some j0 =>
        refine ⟨?_, ?_, ?_, ?_, ?_, Or.inr ⟨j0, rfl, ?_, ?_⟩⟩ <;>
          simp [create_gen_job, submit_job, upsert_gen_job, h, hf]

/-- C1 witness: a concrete triple with a job already generating. -/
theorem C1_witness :
    create_gen_job [⟨5, "g", "clip", "2", "generating", none, none, 0⟩]
      "g" "clip" "2" 9 3 =
      ⟨⟨5, "g", "clip", "2", "generating", none, none, 0⟩, true,
        [⟨5, "g", "clip", "2", "generating", none, none, 0⟩]⟩ ∧
    submit_job [⟨5, "g", "clip", "2", "generating", none, none, 0⟩]
      "g" "clip" "2" 9 3 =
      ⟨5, false, [⟨5, "g", "clip", "2", "generating", none, none, 0⟩]⟩ :=
  (C1_dedup_and_upsert [⟨5, "g", "clip", "2", "generating", none, none, 0⟩]
    "g" "clip" "2" 9 3).1
    ⟨5, "g", "clip", "2", "generating", none, none, 0⟩ (by decide)


/-- Helper: `fail_row` does not change the row id. -/
theorem fail_row_id (m : String) (now : Int) (r : GenJob) :
    (fail_row m now r).id = r.id := rfl

/-- Helper: `fail_if_listed` does not change the row id. -/
theorem fail_if_listed_id (L : List GenJob) (msg : String) (now : Int)
    (r : GenJob) : (fail_if_listed L msg now r).id = r.id := by
  unfold fail_if_listed
  by_cases h : (L.any (fun j => r.id == j.id)) = true
  · rw [if_pos h]
    rfl
  · rw [if_neg h]

/-- Helper: a row whose id is listed gets failed by `fail_if_listed`. -/
theorem fail_if_listed_pos (L : List GenJob) (msg : String) (now : Int)
    (r : GenJob) (j : GenJob) (hj : j ∈ L) (hid : r.id = j.id) :
    fail_if_listed L msg now r = fail_row msg now r := by
  unfold fail_if_listed
  rw [if_pos]
  exact List.any_eq_true.mpr ⟨j, hj, by simp [hid]⟩

/-- Helper: folding `fail_job` with one message over a job list is the
pointwise map `fail_if_listed`. -/
theorem fold_fail_eq_map (msg : String) (now : Int) :
    ∀ (L : List GenJob) (t : Table),
    List.foldl (fun acc j => fail_job acc j.id msg now) t L =
    List.map (fail_if_listed L msg now) t := by
  intro L
  induction L with
  | nil =>
      intro t
      have h : List.map (fail_if_listed [] msg now) t = List.map id t :=
        List.map_congr_left (fun a _ => by unfold fail_if_listed; simp)
      rw [List.foldl_nil, h, List.map_id]
  | cons j L ih =>
      intro t
      have step : List.foldl (fun acc j2 => fail_job acc j2.id msg now) t (j :: L) =
          List.foldl (fun acc j2 => fail_job acc j2.id msg now)
            (fail_job t j.id msg now) L := rfl
      rw [step, ih]
      unfold fail_job
      rw [List.map_map]
      apply List.map_congr_left
      intro r _
      show fail_if_listed L msg now
        (if r.id == j.id then fail_row msg now r else r) =
        fail_if_listed (j :: L) msg now r
      by_cases h : (r.id == j.id) = true
      · rw [if_pos h]
        have hrhs : fail_if_listed (j :: L) msg now r = fail_row msg now r :=
          fail_if_listed_pos _ _ _ _ j (List.mem_cons_self j L) (by simpa using h)
        rw [hrhs]
        unfold fail_if_listed
        by_cases h2 : (L.any fun j2 => (fail_row msg now r).id == j2.id) = true
        · rw [if_pos h2]
          rfl
        · rw [if_neg h2]
      · rw [if_neg h]
        unfold fail_if_listed
        rw [Bool.not_eq_true] at h
        simp only [List.any_cons, h, Bool.false_or]

/-- Helper: one clip check leaves the table unchanged or fails the checked
id of the checked job with some message. -/
theorem check_clip_step_cases (provider : PyVal → AtlasAnswer) (now : Int)
    (t : Table) (job : GenJob) :
    check_clip_step provider now t job = t ∨
    ∃ m, check_clip_step provider now t job = fail_job t job.id m now := by
  simp only [check_clip_step]
  split
  · right; exact ⟨_, rfl⟩
  · split
    · right; exact ⟨_, rfl⟩
    · split
      · left; rfl
      · split
        · right; exact ⟨_, rfl⟩
        · right; exact ⟨_, rfl⟩

/-- Helper: one clip check is a pointwise map that preserves ids and touches
only the id of the checked job. -/
theorem check_clip_step_map (provider : PyVal → AtlasAnswer) (now : Int)
    (t : Table) (job : GenJob) :
    ∃ f : GenJob → GenJob,
      check_clip_step provider now t job = List.map f t ∧
      (∀ r, (f r).id = r.id) ∧ (∀ r, r.id ≠ job.id → f r = r) := by
  rcases check_clip_step_cases provider now t job with h | ⟨m, h⟩
  · refine ⟨id, ?_, fun r => rfl, fun r _ => rfl⟩
    simpa using h
  · refine ⟨fun r => if r.id == job.id then fail_row m now r else r, h, ?_, ?_⟩
    · intro r
      by_cases hr : (r.id == job.id) = true
      · show (if r.id == job.id then fail_row m now r else r).id = r.id
        rw [if_pos hr, fail_row_id]
      · show (if r.id == job.id then fail_row m now r else r).id = r.id
        rw [if_neg hr]
    · intro r hr
      show (if r.id == job.id then fail_row m now r else r) = r
      rw [if_neg]
      simpa using hr

/-- Helper: the clip-check fold is a pointwise map that preserves ids and
touches only the ids of the checked jobs. -/
theorem fold_clips_map (provider : PyVal → AtlasAnswer) (now : Int) :
    ∀ (C : List GenJob) (t : Table),
    ∃ g : GenJob → GenJob,
      check_and_resume_or_fail_clips provider now t C = List.map g t ∧
      (∀ r, (g r).id = r.id) ∧
      (∀ r, (∀ c ∈ C, r.id ≠ c.id) → g r = r) := by
  intro C
  induction C with
  | nil =>
      intro t
      refine ⟨id, ?_, fun r => rfl, fun r _ => rfl⟩
      simp [check_and_resume_or_fail_clips]
  | cons c C ih =>
      intro t
      obtain ⟨f, hf, hfid, hfne⟩ := check_clip_step_map provider now t c
      obtain ⟨g, hg, hgid, hgne⟩ := ih (check_clip_step provider now t c)
      refine ⟨fun r => g (f r), ?_, ?_, ?_⟩
      · have step : check_and_resume_or_fail_clips provider now t (c :: C) =
            check_and_resume_or_fail_clips provider now
              (check_clip_step provider now t c) C := rfl
        rw [step, hg, hf, List.map_map]
        rfl
      · intro r
        show (g (f r)).id = r.id
        rw [hgid, hfid]
      · intro r hr
        have h1 : f r = r := hfne r (hr c (List.mem_cons_self c C))
        show g (f r) = r
        rw [h1]
        exact hgne r (fun c2 hc2 => hr c2 (List.mem_cons_of_mem c hc2))

/-- C3: every stale `"generating"` job whose result carries no
`prediction_id` entry (in particular every non-clip job) is transitioned by
startup recovery to `"failed"` with the interrupted-by-restart message; it is
never left `"generating"` and never marked `"completed"`. -/
theorem C3_stale_without_prediction_ref_fails
    (t : Table) (provider : PyVal → AtlasAnswer) (now cutoff : Int) (j : GenJob)
    (hnd : (List.map GenJob.id t).Nodup) (hj : j ∈ t)
    (hst : j.status = "generating") (hlt : j.updated_at < cutoff)
    (hnc : is_resumable_clip j = false) :
    ∀ j2 ∈ mark_stale_jobs_failed t provider now cutoff,
      j2.id = j.id →
      j2.status = "failed" ∧
      j2.error_message = some "Interrupted by server restart" := by
  intro j2 hj2 hid
  have hjstale : j ∈ List.filter
      (fun j3 => j3.status == "generating" && decide (j3.updated_at < cutoff)) t := by
    refine List.mem_filter.mpr ⟨hj, ?_⟩
    simp [hst, hlt]
  have hempty : (List.filter
      (fun j3 => j3.status == "generating" && decide (j3.updated_at < cutoff)) t).isEmpty
        = false := by
    cases hc : List.filter
        (fun j3 => j3.status == "generating" && decide (j3.updated_at < cutoff)) t with
    | nil => rw [hc] at hjstale; cases hjstale
    | cons a L => rfl
  simp only [mark_stale_jobs_failed, hempty, Bool.false_eq_true, if_false] at hj2
  rw [fold_fail_eq_map] at hj2
  obtain ⟨g, hgeq, hgid, hgne⟩ := fold_clips_map provider now
    (List.take 10 (List.filter (fun j3 => is_resumable_clip j3)
      (List.filter (fun j3 => j3.status == "generating" && decide (j3.updated_at < cutoff)) t)))
    (List.map (fail_if_listed
      (List.filter (fun j3 => !is_resumable_clip j3)
        (List.filter (fun j3 => j3.status == "generating" && decide (j3.updated_at < cutoff)) t))
      "Interrupted by server restart" now) t)
  rw [hgeq, List.map_map] at hj2
  obtain ⟨r0, hr0t, hr0e⟩ := List.mem_map.mp hj2
  have hr0id : r0.id = j.id := by
    have h2 : j2.id = r0.id := by
      rw [← hr0e]
      show (g (fail_if_listed _ _ _ r0)).id = r0.id
      rw [hgid, fail_if_listed_id]
    rw [← h2, hid]
  have hr0j : r0 = j :=
    List.inj_on_of_nodup_map hnd hr0t hj hr0id
  subst hr0j
  have hjfail : r0 ∈ List.filter (fun j3 => !is_resumable_clip j3)
      (List.filter (fun j3 => j3.status == "generating" && decide (j3.updated_at < cutoff)) t) := by
    refine List.mem_filter.mpr ⟨hjstale, ?_⟩
    simp [hnc]
  have hF1 : fail_if_listed
      (List.filter (fun j3 => !is_resumable_clip j3)
        (List.filter (fun j3 => j3.status == "generating" && decide (j3.updated_at < cutoff)) t))
      "Interrupted by server restart" now r0 =
      fail_row "Interrupted by server restart" now r0 :=
    fail_if_listed_pos _ _ _ _ r0 hjfail rfl
  have hguntouched : ∀ c ∈ List.take 10 (List.filter (fun j3 => is_resumable_clip j3)
      (List.filter (fun j3 => j3.status == "generating" && decide (j3.updated_at < cutoff)) t)),
      (fail_row "Interrupted by server restart" now r0).id ≠ c.id := by
    intro c hc
    have hcclip : c ∈ List.filter (fun j3 => is_resumable_clip j3)
        (List.filter (fun j3 => j3.status == "generating" && decide (j3.updated_at < cutoff)) t) :=
      List.mem_of_mem_take hc
    have hcmem := List.mem_filter.mp hcclip
    have hcres : is_resumable_clip c = true := hcmem.2
    have hct : c ∈ t := (List.mem_filter.mp hcmem.1).1
    rw [fail_row_id]
    intro hcid
    have hrc : r0 = c := List.inj_on_of_nodup_map hnd hr0t hct hcid
    rw [hrc, hcres] at hnc
    cases hnc
  have hj2eq : j2 = fail_row "Interrupted by server restart" now r0 := by
    rw [← hr0e]
    show g (fail_if_listed _ _ _ r0) = _
    rw [hF1]
    exact hgne _ hguntouched
  rw [hj2eq]
  exact ⟨rfl, rfl⟩

/-- C3 witness: a concrete stale image job with no prediction reference. -/
theorem C3_witness :
    (List.headD
      (mark_stale_jobs_failed
        [⟨4, "g1", "image", "c1", "generating", none, none, 0⟩]
        (fun _ => .ok "completed" none []) 1000 600)
      ⟨0, "", "", "", "", none, none, 0⟩).status = "failed" ∧
    (List.headD
      (mark_stale_jobs_failed
        [⟨4, "g1", "image", "c1", "generating", none, none, 0⟩]
        (fun _ => .ok "completed" none []) 1000 600)
      ⟨0, "", "", "", "", none, none, 0⟩).error_message =
      some "Interrupted by server restart" :=
  C3_stale_without_prediction_ref_fails
    [⟨4, "g1", "image", "c1", "generating", none, none, 0⟩]
    (fun _ => .ok "completed" none []) 1000 600
    ⟨4, "g1", "image", "c1", "generating", none, none, 0⟩
    (by decide) (by decide) rfl (by decide) (by decide)
    (List.headD
      (mark_stale_jobs_failed
        [⟨4, "g1", "image", "c1", "generating", none, none, 0⟩]
        (fun _ => .ok "completed" none []) 1000 600)
      ⟨0, "", "", "", "", none, none, 0⟩)
    (by decide) (by decide)

/-- C2: a stale `"generating"` clip job whose result carries a prediction
reference, with the provider reporting the prediction completed, is never
transitioned to `"completed"` by startup recovery.  `mark_stale_jobs_failed`
deliberately leaves it `"generating"` for `resume_clip_polling`, but the
resume call `download_video(atlas_url, clip_id, scene_number,
generation_id=...)` cannot bind against the signature in routers/film.py,
`download_video(video_url, film_id, shot_number)`: the `TypeError` is caught
by the resume handler, which marks the job `"failed"` instead of completing
the download-upload-complete flow its own docstring promises. -/
theorem C2_completed_prediction_job_never_completed :
    call_binds_ok film_download_video_params 3 ["generation_id"] = false ∧
    List.map GenJob.status
      (mark_stale_jobs_failed
        [⟨4, "g1", "clip", "2", "generating",
          some [("prediction_id", .vStr "p1"), ("generation_id", .vStr "g1"),
                ("scene_number", .vInt 2)], none, 0⟩]
        (fun _ => .ok "completed" none ["https://atlas/tmp.mp4"]) 1000 600) =
      ["generating"] ∧
    resume_clip_polling (fun _ => .ok "completed" none ["https://atlas/tmp.mp4"]) =
      .wrote "failed"
        (some ("Resume polling failed: " ++ download_video_type_error)) none := by
  refine ⟨by decide, by decide, ?_⟩
  decide

/-- Helper: a `filterMap` whose function hits on every element keeps the
length. -/
theorem length_filterMap_allSome {α β : Type} (f : α → Option β) :
    ∀ l : List α, (∀ a ∈ l, (f a).isSome) → (l.filterMap f).length = l.length := by
  intro l
  induction l with
  | nil => intro _; rfl
  | cons a l ih =>
      intro h
      rw [List.filterMap_cons]
      cases hfa : f a with
      | none =>
          have := h a (List.mem_cons_self a l)
          rw [hfa] at this
          cases this
      | some b =>
          simp only [List.length_cons]
          rw [ih (fun a2 ha2 => h a2 (List.mem_cons_of_mem a ha2))]

/-- Helper: with exactly one failing beat, the `failures` list of
`run_film_generation` is exactly the entry of that beat. -/
theorem film_failures_single (pre post : List Beat) (b0 : Beat) (e0 : String)
    (shot_work : Beat → Except String String)
    (hfail : shot_work b0 = .error e0)
    (hok : ∀ b ∈ pre ++ post, ∃ p, shot_work b = .ok p) :
    film_failures (pre ++ b0 :: post) shot_work = [(b0.number, e0)] := by
  unfold film_failures
  have hpre : List.filterMap
      (fun b => match shot_work b with
        | .ok _ => none
        | .error e => some (b.number, e)) pre = [] := by
    refine List.filterMap_eq_nil_iff.mpr (fun b hb => ?_)
    obtain ⟨p, hp⟩ := hok b (List.mem_append_left post hb)
    simp [hp]
  have hpost : List.filterMap
      (fun b => match shot_work b with
        | .ok _ => none
        | .error e => some (b.number, e)) post = [] := by
    refine List.filterMap_eq_nil_iff.mpr (fun b hb => ?_)
    obtain ⟨p, hp⟩ := hok b (List.mem_append_right pre hb)
    simp [hp]
  rw [List.filterMap_append, hpre, List.filterMap_cons]
  simp [hfail, hpost]

/-- Helper: with exactly one failing beat, the number of completed shots is
the number of processed beats minus one, whatever the completion order. -/
theorem film_completed0_length (arrivals pre post : List Beat) (b0 : Beat)
    (e0 : String) (shot_work : Beat → Except String String)
    (hperm : arrivals.Perm (pre ++ b0 :: post))
    (hfail : shot_work b0 = .error e0)
    (hok : ∀ b ∈ pre ++ post, ∃ p, shot_work b = .ok p) :
    (film_completed0 arrivals shot_work).length = pre.length + post.length := by
  unfold film_completed0
  rw [(hperm.filterMap _).length_eq, List.filterMap_append, List.filterMap_cons]
  have hsome : ∀ b ∈ pre ++ post,
      ((fun b => match shot_work b with
        | .ok p => some (⟨b.number, p⟩ : CompletedShot)
        | .error _ => none) b).isSome := by
    intro b hb
    obtain ⟨p, hp⟩ := hok b hb
    simp [hp]
  have hpre := length_filterMap_allSome _ pre
    (fun b hb => hsome b (List.mem_append_left post hb))
  have hpost := length_filterMap_allSome _ post
    (fun b hb => hsome b (List.mem_append_right pre hb))
  simp only [hfail]
  rw [List.length_append, hpre, hpost]

/-- C4 counterexample: two shots, shot 1 always errors and shot 2 succeeds
(completing first); the film ends `"ready"` with shot 2 only, but the failed
shot number is not reported in any caller-visible error field —
`error_message` stays `None`; the failures list is only printed to the log. -/
theorem C4_counterexample_failed_shot_not_exposed :
    (run_film_generation [⟨1⟩, ⟨2⟩] [⟨2⟩, ⟨1⟩]
      (fun b => if b.number == 1 then .error "boom" else .ok "path2")
      (fun _ => .ok ("final.mp4", 16)) 2).fst.status = "ready" ∧
    (run_film_generation [⟨1⟩, ⟨2⟩] [⟨2⟩, ⟨1⟩]
      (fun b => if b.number == 1 then .error "boom" else .ok "path2")
      (fun _ => .ok ("final.mp4", 16)) 2).fst.error_message = none ∧
    List.map CompletedShot.number
      (run_film_generation [⟨1⟩, ⟨2⟩] [⟨2⟩, ⟨1⟩]
        (fun b => if b.number == 1 then .error "boom" else .ok "path2")
        (fun _ => .ok ("final.mp4", 16)) 2).fst.completed_shots = [2] := by
  decide

/-- C4 (amended): for a film of at most `MAX_SHOTS_FOR_TESTING` shots where
the work of exactly one shot always errors and the others succeed, and assembly
succeeds: the job ends `"ready"` (not failed) with `total_shots - 1`
completed shots sorted by shot number before assembly and a final video set;
the failed shot number appears (only) in the internally printed failures
list, while the caller-visible `error_message` remains `None`. -/
theorem C4_exactly_one_shot_fails
    (pre post arrivals : List Beat) (b0 : Beat) (e0 : String)
    (shot_work : Beat → Except String String)
    (assemble : List String → Except String (String × Nat)) (total0 : Nat)
    (hlen : (pre ++ b0 :: post).length ≤ 3)
    (hne : pre ++ post ≠ [])
    (hperm : arrivals.Perm (pre ++ b0 :: post))
    (hfail : shot_work b0 = .error e0)
    (hok : ∀ b ∈ pre ++ post, ∃ p, shot_work b = .ok p)
    (hasm : ∀ ps, ∃ out, assemble ps = .ok out) :
    (run_film_generation (pre ++ b0 :: post) arrivals shot_work assemble
      total0).fst.status = "ready" ∧
    (run_film_generation (pre ++ b0 :: post) arrivals shot_work assemble
      total0).fst.total_shots = (pre ++ b0 :: post).length ∧
    (run_film_generation (pre ++ b0 :: post) arrivals shot_work assemble
      total0).fst.completed_shots.length = (pre ++ b0 :: post).length - 1 ∧
    List.Sorted (fun a b => a ≤ b) (List.map CompletedShot.number
      (run_film_generation (pre ++ b0 :: post) arrivals shot_work assemble
        total0).fst.completed_shots) ∧
    (run_film_generation (pre ++ b0 :: post) arrivals shot_work assemble
      total0).fst.error_message = none ∧
    (run_film_generation (pre ++ b0 :: post) arrivals shot_work assemble
      total0).fst.final_video_path.isSome = true ∧
    (run_film_generation (pre ++ b0 :: post) arrivals shot_work assemble
      total0).snd = [(b0.number, e0)] := by
  have hbp : film_beats_to_process (pre ++ b0 :: post) = pre ++ b0 :: post := by
    simp only [film_beats_to_process, MAX_SHOTS_FOR_TESTING]
    exact List.take_of_length_le hlen
  have hfailures := film_failures_single pre post b0 e0 shot_work hfail hok
  have hcomp := film_completed0_length arrivals pre post b0 e0 shot_work
    hperm hfail hok
  have hlen2 : 2 ≤ (pre ++ b0 :: post).length := by
    have h1 : (pre ++ post).length ≠ 0 := fun hz =>
      hne (List.eq_nil_of_length_eq_zero hz)
    simp only [List.length_append, List.length_cons] at *
    omega
  have hsortlen : (List.insertionSort shot_le
      (film_completed0 arrivals shot_work)).length =
      (film_completed0 arrivals shot_work).length :=
    (List.perm_insertionSort shot_le _).length_eq
  have hsorted : List.Sorted shot_le (List.insertionSort shot_le
      (film_completed0 arrivals shot_work)) :=
    List.sorted_insertionSort shot_le _
  obtain ⟨out, hout⟩ := hasm (List.map (fun s => s.video_path)
    (List.insertionSort shot_le (film_completed0 arrivals shot_work)))
  rcases out with ⟨path, dur⟩
  have hcond : ¬((film_failures (film_beats_to_process (pre ++ b0 :: post))
      shot_work).length ≠ 0 ∧
      (film_failures (film_beats_to_process (pre ++ b0 :: post))
        shot_work).length =
      (film_beats_to_process (pre ++ b0 :: post)).length) := by
    rw [hbp, hfailures]
    intro hc
    have := hc.2
    simp only [List.length_cons, List.length_nil] at this
    omega
  unfold run_film_generation
  rw [if_neg hcond, hbp, hfailures]
  dsimp only [film_job_init]
  rw [hout]
  refine ⟨rfl, rfl, ?_, ?_, rfl, rfl, rfl⟩
  · show (List.insertionSort shot_le (film_completed0 arrivals shot_work)).length = _
    rw [hsortlen, hcomp]
    simp only [List.length_append, List.length_cons]
    omega
  · show List.Sorted (fun a b => a ≤ b) (List.map CompletedShot.number
      (List.insertionSort shot_le (film_completed0 arrivals shot_work)))
    exact List.pairwise_map.mpr hsorted

/-- C4 witness: two shots, shot 1 always fails, shot 2 completes first. -/
theorem C4_witness :
    (run_film_generation [⟨1⟩, ⟨2⟩] [⟨2⟩, ⟨1⟩]
      (fun b => if b.number == 1 then .error "boom" else .ok "path2")
      (fun _ => .ok ("final.mp4", 16)) 2).fst.status = "ready" ∧
    (run_film_generation [⟨1⟩, ⟨2⟩] [⟨2⟩, ⟨1⟩]
      (fun b => if b.number == 1 then .error "boom" else .ok "path2")
      (fun _ => .ok ("final.mp4", 16)) 2).fst.total_shots = 2 ∧
    (run_film_generation [⟨1⟩, ⟨2⟩] [⟨2⟩, ⟨1⟩]
      (fun b => if b.number == 1 then .error "boom" else .ok "path2")
      (fun _ => .ok ("final.mp4", 16)) 2).fst.completed_shots.length = 1 ∧
    List.Sorted (fun a b => a ≤ b) (List.map CompletedShot.number
      (run_film_generation [⟨1⟩, ⟨2⟩] [⟨2⟩, ⟨1⟩]
        (fun b => if b.number == 1 then .error "boom" else .ok "path2")
        (fun _ => .ok ("final.mp4", 16)) 2).fst.completed_shots) ∧
    (run_film_generation [⟨1⟩, ⟨2⟩] [⟨2⟩, ⟨1⟩]
      (fun b => if b.number == 1 then .error "boom" else .ok "path2")
      (fun _ => .ok ("final.mp4", 16)) 2).fst.error_message = none ∧
    (run_film_generation [⟨1⟩, ⟨2⟩] [⟨2⟩, ⟨1⟩]
      (fun b => if b.number == 1 then .error "boom" else .ok "path2")
      (fun _ => .ok ("final.mp4", 16)) 2).fst.final_video_path.isSome = true ∧
    (run_film_generation [⟨1⟩, ⟨2⟩] [⟨2⟩, ⟨1⟩]
      (fun b => if b.number == 1 then .error "boom" else .ok "path2")
      (fun _ => .ok ("final.mp4", 16)) 2).snd = [(1, "boom")] :=
  C4_exactly_one_shot_fails [] [⟨2⟩] [⟨2⟩, ⟨1⟩] ⟨1⟩ "boom"
    (fun b => if b.number == 1 then .error "boom" else .ok "path2")
    (fun _ => .ok ("final.mp4", 16)) 2
    (by decide) (by decide) (by decide) rfl
    (by
      intro b hb
      simp only [List.nil_append, List.mem_singleton] at hb
      subst hb
      exact ⟨"path2", rfl⟩)
    (fun ps => ⟨("final.mp4", 16), rfl⟩)

/-- C9 counterexample: three shots, shot 2 always errors; the film still
ends `"ready"` although `completed_shots` does not contain shot number 2 —
the ready-implies-all-shots-present invariant fails on partial films. -/
theorem C9_counterexample_ready_with_missing_shot :
    (run_film_generation [⟨1⟩, ⟨2⟩, ⟨3⟩] [⟨3⟩, ⟨1⟩, ⟨2⟩]
      (fun b => if b.number == 2 then .error "safety" else .ok "p")
      (fun _ => .ok ("final.mp4", 24)) 3).fst.status = "ready" ∧
    (run_film_generation [⟨1⟩, ⟨2⟩, ⟨3⟩] [⟨3⟩, ⟨1⟩, ⟨2⟩]
      (fun b => if b.number == 2 then .error "safety" else .ok "p")
      (fun _ => .ok ("final.mp4", 24)) 3).fst.total_shots = 3 ∧
    List.map CompletedShot.number
      (run_film_generation [⟨1⟩, ⟨2⟩, ⟨3⟩] [⟨3⟩, ⟨1⟩, ⟨2⟩]
        (fun b => if b.number == 2 then .error "safety" else .ok "p")
        (fun _ => .ok ("final.mp4", 24)) 3).fst.completed_shots = [1, 3] := by
  decide

/-- C9 (amended): whenever `run_film_generation` ends with status `"ready"`,
the final artifact reference (`final_video_path`) is set and
`completed_shots` is sorted by shot number; `completed_shots` need not
contain every shot number 1..`total_shots`, since partial films are also
marked ready. -/
theorem C9_ready_implies_final_artifact
    (beats arrivals : List Beat) (shot_work : Beat → Except String String)
    (assemble : List String → Except String (String × Nat)) (total0 : Nat)
    (h : (run_film_generation beats arrivals shot_work assemble
      total0).fst.status = "ready") :
    (run_film_generation beats arrivals shot_work assemble
      total0).fst.final_video_path.isSome = true ∧
    List.Sorted (fun a b => a ≤ b) (List.map CompletedShot.number
      (run_film_generation beats arrivals shot_work assemble
        total0).fst.completed_shots) := by
  unfold run_film_generation at h ⊢
  dsimp only at h ⊢
  by_cases hcond : (film_failures (film_beats_to_process beats) shot_work).length ≠ 0 ∧
      (film_failures (film_beats_to_process beats) shot_work).length =
      (film_beats_to_process beats).length
  · rw [if_pos hcond] at h
    dsimp only at h
    exact absurd h (by decide)
  · rw [if_neg hcond] at h ⊢
    cases hA : assemble (List.map (fun s => s.video_path)
        (List.insertionSort shot_le (film_completed0 arrivals shot_work))) with
    | ok out =>
        rcases out with ⟨path, dur⟩
        exact ⟨rfl, List.pairwise_map.mpr (List.sorted_insertionSort shot_le _)⟩
    | error e =>
        rw [hA] at h
        simp at h

/-- C9 witness: a one-shot film that fully succeeds ends ready. -/
theorem C9_witness :
    (run_film_generation [⟨1⟩] [⟨1⟩] (fun _ => .ok "p1")
      (fun _ => .ok ("final.mp4", 8)) 1).fst.final_video_path.isSome = true ∧
    List.Sorted (fun a b => a ≤ b) (List.map CompletedShot.number
      (run_film_generation [⟨1⟩] [⟨1⟩] (fun _ => .ok "p1")
        (fun _ => .ok ("final.mp4", 8)) 1).fst.completed_shots) :=
  C9_ready_implies_final_artifact [⟨1⟩] [⟨1⟩] (fun _ => .ok "p1")
    (fun _ => .ok ("final.mp4", 8)) 1 (by decide)

/-- Helper: the imagen retry loop performs at most `attempt + fuel` calls. -/
theorem genai_loop_go_calls (outcomes : Nat → GenaiAttempt) (jitter : Nat → ℚ)
    (maxR : Nat) (baseD : ℚ) :
    ∀ (fuel attempt : Nat) (acc : List (Nat × ℚ)),
    (genai_loop_go outcomes jitter maxR baseD fuel attempt acc).calls ≤
      attempt + fuel := by
  intro fuel
  induction fuel with
  | zero => intro attempt acc; exact Nat.le_refl _
  | succ fuel ih =>
      intro attempt acc
      rw [show genai_loop_go outcomes jitter maxR baseD (fuel + 1) attempt acc =
        (match outcomes attempt with
          | .ok img => ⟨attempt + 1, acc.reverse, .ok img⟩
          | .timedOut =>
              if attempt < maxR then
                genai_loop_go outcomes jitter maxR baseD fuel
                  (attempt + 1) ((attempt, 0) :: acc)
              else ⟨attempt + 1, acc.reverse, .error genai_timeout_message⟩
          | .exc m =>
              if imagen_is_transient m ∧ attempt < maxR then
                genai_loop_go outcomes jitter maxR baseD fuel
                  (attempt + 1) ((attempt, baseD * 2 ^ attempt + jitter attempt) :: acc)
              else ⟨attempt + 1, acc.reverse, .error m⟩) from rfl]
      cases outcomes attempt with
      | ok img => dsimp only; omega
      | timedOut =>
          dsimp only
          by_cases h : attempt < maxR
          · rw [if_pos h]
            have := ih (attempt + 1) ((attempt, 0) :: acc)
            omega
          · rw [if_neg h]
            dsimp only
            omega
      | exc m =>
          dsimp only
          by_cases h : imagen_is_transient m ∧ attempt < maxR
          · rw [if_pos h]
            have := ih (attempt + 1)
              ((attempt, baseD * 2 ^ attempt + jitter attempt) :: acc)
            omega
          · rw [if_neg h]
            dsimp only
            omega

/-- Helper: every recorded wait of the imagen retry loop either was in the
accumulator already, or is a zero wait after a timed-out attempt, or is the
exponential-backoff-plus-jitter wait after a transient exception. -/
theorem genai_loop_go_waits (outcomes : Nat → GenaiAttempt) (jitter : Nat → ℚ)
    (maxR : Nat) (baseD : ℚ) :
    ∀ (fuel attempt : Nat) (acc : List (Nat × ℚ)),
    ∀ e ∈ (genai_loop_go outcomes jitter maxR baseD fuel attempt acc).waits,
      e ∈ acc ∨
      (outcomes e.1 = .timedOut ∧ e.2 = 0) ∨
      (∃ m, outcomes e.1 = .exc m ∧ e.2 = baseD * 2 ^ e.1 + jitter e.1) := by
  intro fuel
  induction fuel with
  | zero =>
      intro attempt acc e he
      exact Or.inl (List.mem_reverse.mp he)
  | succ fuel ih =>
      intro attempt acc e he
      rw [show genai_loop_go outcomes jitter maxR baseD (fuel + 1) attempt acc =
        (match outcomes attempt with
          | .ok img => ⟨attempt + 1, acc.reverse, .ok img⟩
          | .timedOut =>
              if attempt < maxR then
                genai_loop_go outcomes jitter maxR baseD fuel
                  (attempt + 1) ((attempt, 0) :: acc)
              else ⟨attempt + 1, acc.reverse, .error genai_timeout_message⟩
          | .exc m =>
              if imagen_is_transient m ∧ attempt < maxR then
                genai_loop_go outcomes jitter maxR baseD fuel
                  (attempt + 1) ((attempt, baseD * 2 ^ attempt + jitter attempt) :: acc)
              else ⟨attempt + 1, acc.reverse, .error m⟩) from rfl] at he
      cases ho : outcomes attempt with
      | ok img =>
          rw [ho] at he
          dsimp only at he
          exact Or.inl (List.mem_reverse.mp he)
      | timedOut =>
          rw [ho] at he
          dsimp only at he
          by_cases h : attempt < maxR
          · rw [if_pos h] at he
            rcases ih (attempt + 1) ((attempt, 0) :: acc) e he with hacc | hrest
            · rcases List.mem_cons.mp hacc with heq | hacc2
              · right; left
                rw [heq]
                exact ⟨ho, rfl⟩
              · exact Or.inl hacc2
            · exact Or.inr hrest
          · rw [if_neg h] at he
            exact Or.inl (List.mem_reverse.mp he)
      | exc m =>
          rw [ho] at he
          dsimp only at he
          by_cases h : imagen_is_transient m ∧ attempt < maxR
          · rw [if_pos h] at he
            rcases ih (attempt + 1)
              ((attempt, baseD * 2 ^ attempt + jitter attempt) :: acc) e he with
              hacc | hrest
            · rcases List.mem_cons.mp hacc with heq | hacc2
              · right; right
                rw [heq]
                exact ⟨m, ho, rfl⟩
              · exact Or.inl hacc2
            · exact Or.inr hrest
          · rw [if_neg h] at he
            exact Or.inl (List.mem_reverse.mp he)

/-- Helper: the OpenAI fallback wrapper does not change the call count or
the recorded waits of the Google retry loop. -/
theorem genai_run_preserves_trace (outcomes : Nat → GenaiAttempt)
    (jitter : Nat → ℚ) (maxR : Nat) (baseD : ℚ) (fp : Option String)
    (oa : Bool) (ores : Except String String) :
    (genai_generate_content_run outcomes jitter maxR baseD fp oa ores).calls =
      (genai_loop_go outcomes jitter maxR baseD (maxR + 1) 0 []).calls ∧
    (genai_generate_content_run outcomes jitter maxR baseD fp oa ores).waits =
      (genai_loop_go outcomes jitter maxR baseD (maxR + 1) 0 []).waits := by
  unfold genai_generate_content_run
  generalize genai_loop_go outcomes jitter maxR baseD (maxR + 1) 0 [] = L
  rcases L with ⟨c, w, oc⟩
  cases oc with
  | ok img => exact ⟨rfl, rfl⟩
  | error last =>
      dsimp only
      by_cases h : imagen_is_transient last = true ∧ fp.isSome = true ∧ oa = true
      · rw [if_pos h]
        cases ores with
        | ok img => exact ⟨rfl, rfl⟩
        | error m => exact ⟨rfl, rfl⟩
      · rw [if_neg h]
        exact ⟨rfl, rfl⟩

/-- Helper: the gemini retry loop performs at most `attempt + fuel` calls. -/
theorem generate_text_go_calls (outcomes : Nat → TextAttempt) (maxR : Nat)
    (baseD : ℚ) :
    ∀ (fuel attempt : Nat) (acc : List (Nat × ℚ)),
    (generate_text_go outcomes maxR baseD fuel attempt acc).calls ≤
      attempt + fuel := by
  intro fuel
  induction fuel with
  | zero => intro attempt acc; exact Nat.le_refl _
  | succ fuel ih =>
      intro attempt acc
      rw [show generate_text_go outcomes maxR baseD (fuel + 1) attempt acc =
        (match outcomes attempt with
          | .ok s => ⟨attempt + 1, acc.reverse, .ok s⟩
          | .exc m =>
              if gemini_is_retryable m ∧ attempt < maxR then
                generate_text_go outcomes maxR baseD fuel (attempt + 1)
                  ((attempt, baseD * 2 ^ attempt) :: acc)
              else ⟨attempt + 1, acc.reverse, .error m⟩) from rfl]
      cases outcomes attempt with
      | ok s => dsimp only; omega
      | exc m =>
          dsimp only
          by_cases h : gemini_is_retryable m ∧ attempt < maxR
          · rw [if_pos h]
            have := ih (attempt + 1) ((attempt, baseD * 2 ^ attempt) :: acc)
            omega
          · rw [if_neg h]
            dsimp only
            omega

/-- Helper: every wait recorded by the gemini retry loop is exactly the
exponential backoff for its attempt (no jitter). -/
theorem generate_text_go_waits (outcomes : Nat → TextAttempt) (maxR : Nat)
    (baseD : ℚ) :
    ∀ (fuel attempt : Nat) (acc : List (Nat × ℚ)),
    ∀ e ∈ (generate_text_go outcomes maxR baseD fuel attempt acc).waits,
      e ∈ acc ∨ e.2 = baseD * 2 ^ e.1 := by
  intro fuel
  induction fuel with
  | zero =>
      intro attempt acc e he
      exact Or.inl (List.mem_reverse.mp he)
  | succ fuel ih =>
      intro attempt acc e he
      rw [show generate_text_go outcomes maxR baseD (fuel + 1) attempt acc =
        (match outcomes attempt with
          | .ok s => ⟨attempt + 1, acc.reverse, .ok s⟩
          | .exc m =>
              if gemini_is_retryable m ∧ attempt < maxR then
                generate_text_go outcomes maxR baseD fuel (attempt + 1)
                  ((attempt, baseD * 2 ^ attempt) :: acc)
              else ⟨attempt + 1, acc.reverse, .error m⟩) from rfl] at he
      cases ho : outcomes attempt with
      | ok s =>
          rw [ho] at he
          dsimp only at he
          exact Or.inl (List.mem_reverse.mp he)
      | exc m =>
          rw [ho] at he
          dsimp only at he
          by_cases h : gemini_is_retryable m ∧ attempt < maxR
          · rw [if_pos h] at he
            rcases ih (attempt + 1) ((attempt, baseD * 2 ^ attempt) :: acc) e he with
              hacc | hrest
            · rcases List.mem_cons.mp hacc with heq | hacc2
              · right
                rw [heq]
              · exact Or.inl hacc2
            · exact Or.inr hrest
          · rw [if_neg h] at he
            exact Or.inl (List.mem_reverse.mp he)

/-- C5 counterexample: when the first Google image attempt times out, the
retry loop retries immediately (`continue` with no sleep) — the wait before
the second call is 0, strictly less than `base_delay * 2 ** attempt`.  So a
retry after a transient failure (a timeout is transient per the spec) can
wait less than the exponential backoff. -/
theorem C5_counterexample_timeout_retries_without_delay :
    (genai_generate_content_run
      (fun i => if i == 0 then .timedOut else .ok "img") (fun _ => 0)
      MAX_RETRIES RETRY_BASE_DELAY (some "prompt") false (.error "x")).calls = 2 ∧
    (genai_generate_content_run
      (fun i => if i == 0 then .timedOut else .ok "img") (fun _ => 0)
      MAX_RETRIES RETRY_BASE_DELAY (some "prompt") false (.error "x")).waits =
      [(0, 0)] ∧
    (0 : ℚ) < RETRY_BASE_DELAY * 2 ^ 0 := by
  refine ⟨rfl, rfl, ?_⟩
  norm_num [RETRY_BASE_DELAY]

/-- C5 (amended): both retry loops invoke the wrapped function at most
`max_retries + 1` times.  Before a retry the gemini loop waits exactly
`base_delay * 2 ** attempt`; the imagen loop waits
`base_delay * 2 ** attempt` plus a jitter in `[0, 2]` (only adding) after a
transient exception, but waits 0 after a timed-out attempt. -/
theorem C5_retry_attempt_and_backoff_bounds
    (outcomes : Nat → GenaiAttempt) (jitter : Nat → ℚ) (maxR : Nat)
    (baseD : ℚ) (fp : Option String) (oa : Bool)
    (ores : Except String String) (toutcomes : Nat → TextAttempt)
    (tmaxR : Nat) (tbaseD : ℚ)
    (hj : ∀ i, 0 ≤ jitter i ∧ jitter i ≤ 2) :
    (genai_generate_content_run outcomes jitter maxR baseD fp oa ores).calls ≤
      maxR + 1 ∧
    (∀ e ∈ (genai_generate_content_run outcomes jitter maxR baseD fp oa
        ores).waits,
      (outcomes e.1 = .timedOut ∧ e.2 = 0) ∨
      (baseD * 2 ^ e.1 ≤ e.2 ∧ e.2 ≤ baseD * 2 ^ e.1 + 2)) ∧
    (generate_text_run toutcomes tmaxR tbaseD).calls ≤ tmaxR + 1 ∧
    (∀ e ∈ (generate_text_run toutcomes tmaxR tbaseD).waits,
      e.2 = tbaseD * 2 ^ e.1) := by
  obtain ⟨hcalls, hwaits⟩ :=
    genai_run_preserves_trace outcomes jitter maxR baseD fp oa ores
  refine ⟨?_, ?_, ?_, ?_⟩
  · rw [hcalls]
    have := genai_loop_go_calls outcomes jitter maxR baseD (maxR + 1) 0 []
    omega
  · intro e he
    rw [hwaits] at he
    rcases genai_loop_go_waits outcomes jitter maxR baseD (maxR + 1) 0 [] e he with
      hacc | hto | ⟨m, _, hw⟩
    · cases hacc
    · exact Or.inl hto
    · right
      rw [hw]
      constructor
      · have := (hj e.1).1
        linarith
      · have := (hj e.1).2
        linarith
  · unfold generate_text_run
    have := generate_text_go_calls toutcomes tmaxR tbaseD (tmaxR + 1) 0 []
    omega
  · intro e he
    rcases generate_text_go_waits toutcomes tmaxR tbaseD (tmaxR + 1) 0 [] e he with
      hacc | hw
    · cases hacc
    · exact hw

/-- C5 witness: concrete runs whose first attempt raises a transient error
and whose second succeeds. -/
theorem C5_witness :
    (genai_generate_content_run
      (fun i => if i == 0 then .exc "429 rate limited" else .ok "img")
      (fun _ => 1) MAX_RETRIES RETRY_BASE_DELAY none false
      (.error "x")).calls ≤ MAX_RETRIES + 1 ∧
    (generate_text_run
      (fun i => if i == 0 then .exc "503 UNAVAILABLE" else .ok "text")
      MAX_RETRIES RETRY_BASE_DELAY).calls ≤ MAX_RETRIES + 1 :=
  ⟨(C5_retry_attempt_and_backoff_bounds
      (fun i => if i == 0 then .exc "429 rate limited" else .ok "img")
      (fun _ => 1) MAX_RETRIES RETRY_BASE_DELAY none false (.error "x")
      (fun i => if i == 0 then .exc "503 UNAVAILABLE" else .ok "text")
      MAX_RETRIES RETRY_BASE_DELAY
      (fun _ => ⟨by norm_num, by norm_num⟩)).1,
   (C5_retry_attempt_and_backoff_bounds
      (fun i => if i == 0 then .exc "429 rate limited" else .ok "img")
      (fun _ => 1) MAX_RETRIES RETRY_BASE_DELAY none false (.error "x")
      (fun i => if i == 0 then .exc "503 UNAVAILABLE" else .ok "text")
      MAX_RETRIES RETRY_BASE_DELAY
      (fun _ => ⟨by norm_num, by norm_num⟩)).2.2.1⟩


/-- Helper: the Seedance poll loop issues at most `polls + fuel` polls. -/
theorem seedance_poll_go_polls (statuses : Nat → AtlasAnswer) :
    ∀ (fuel elapsed polls slept : Nat),
    (seedance_poll_go statuses fuel elapsed polls slept).polls ≤ polls + fuel := by
  intro fuel
  induction fuel with
  | zero => intro elapsed polls slept; exact Nat.le_refl _
  | succ fuel ih =>
      intro elapsed polls slept
      unfold seedance_poll_go
      by_cases hg : elapsed < POLL_TIMEOUT_SECONDS
      · rw [if_pos hg]
        cases statuses polls with
        | raised m => dsimp only; omega
        | ok st err outs =>
            dsimp only
            by_cases h1 : (st == "completed" || st == "succeeded") = true
            · rw [if_pos h1]
              dsimp only
              omega
            · rw [if_neg h1]
              by_cases h2 : (st == "failed") = true
              · rw [if_pos h2]
                dsimp only
                omega
              · rw [if_neg h2]
                have := ih (elapsed + POLL_INTERVAL_SECONDS) (polls + 1)
                  (slept + POLL_INTERVAL_SECONDS)
                omega
      · rw [if_neg hg]
        dsimp only
        omega

/-- Helper: the Seedance poll loop sleeps exactly the poll interval before
every poll. -/
theorem seedance_poll_go_slept (statuses : Nat → AtlasAnswer) :
    ∀ (fuel elapsed polls slept : Nat),
    slept = POLL_INTERVAL_SECONDS * polls →
    (seedance_poll_go statuses fuel elapsed polls slept).slept =
      POLL_INTERVAL_SECONDS * (seedance_poll_go statuses fuel elapsed polls slept).polls := by
  intro fuel
  induction fuel with
  | zero => intro elapsed polls slept h; exact h
  | succ fuel ih =>
      intro elapsed polls slept h
      unfold seedance_poll_go
      by_cases hg : elapsed < POLL_TIMEOUT_SECONDS
      · rw [if_pos hg]
        cases statuses polls with
        | raised m =>
            dsimp only
            rw [h]
            simp [POLL_INTERVAL_SECONDS]
            ring
        | ok st err outs =>
            dsimp only
            by_cases h1 : (st == "completed" || st == "succeeded") = true
            · rw [if_pos h1]
              dsimp only
              rw [h]
              simp [POLL_INTERVAL_SECONDS]
              ring
            · rw [if_neg h1]
              by_cases h2 : (st == "failed") = true
              · rw [if_pos h2]
                dsimp only
                rw [h]
                simp [POLL_INTERVAL_SECONDS]
                ring
              · rw [if_neg h2]
                refine ih (elapsed + POLL_INTERVAL_SECONDS) (polls + 1)
                  (slept + POLL_INTERVAL_SECONDS) ?_
                rw [h]
                ring
      · rw [if_neg hg]
        exact h

/-- Helper: on a provider that never reports a terminal state the Seedance
loop runs its full budget and times out. -/
theorem seedance_poll_go_timeout (statuses : Nat → AtlasAnswer)
    (hnt : ∀ i, atlas_nonterminal (statuses i) = true) :
    ∀ (fuel polls slept : Nat), fuel + polls = 200 →
    (seedance_poll_go statuses fuel (POLL_INTERVAL_SECONDS * polls) polls
      slept).result = .timedOut ∧
    (seedance_poll_go statuses fuel (POLL_INTERVAL_SECONDS * polls) polls
      slept).polls = 200 := by
  intro fuel
  induction fuel with
  | zero =>
      intro polls slept hsum
      refine ⟨rfl, ?_⟩
      show polls = 200
      omega
  | succ fuel ih =>
      intro polls slept hsum
      unfold seedance_poll_go
      have hg : POLL_INTERVAL_SECONDS * polls < POLL_TIMEOUT_SECONDS := by
        simp only [POLL_INTERVAL_SECONDS, POLL_TIMEOUT_SECONDS]
        omega
      rw [if_pos hg]
      have h := hnt polls
      cases hs : statuses polls with
      | raised m =>
          rw [hs] at h
          cases h
      | ok st err outs =>
          rw [hs] at h
          dsimp only [atlas_nonterminal] at h
          have h3 : (st == "completed" || st == "succeeded" || st == "failed") =
              false := by
            cases hb : (st == "completed" || st == "succeeded" || st == "failed") with
            | false => rfl
            | true => rw [hb] at h; cases h
          have h1 : (st == "completed" || st == "succeeded") = false :=
            (Bool.or_eq_false_iff.mp h3).1
          have h2 : (st == "failed") = false :=
            (Bool.or_eq_false_iff.mp h3).2
          dsimp only
          rw [if_neg (by rw [h1]; exact Bool.false_ne_true),
            if_neg (by rw [h2]; exact Bool.false_ne_true)]
          have heq : POLL_INTERVAL_SECONDS * polls + POLL_INTERVAL_SECONDS =
              POLL_INTERVAL_SECONDS * (polls + 1) := by ring
          rw [heq]
          exact ih (polls + 1) (slept + POLL_INTERVAL_SECONDS) (by omega)

/-- Helper: the Veo poll loop never exits when the operation never reports
done. -/
theorem veo_poll_go_never_done :
    ∀ (fuel i : Nat), veo_poll_go (fun _ => false) fuel i = none := by
  intro fuel
  induction fuel with
  | zero => intro i; rfl
  | succ fuel ih =>
      intro i
      unfold veo_poll_go
      rw [if_neg Bool.false_ne_true]
      exact ih (i + 1)

/-- C7 counterexample: the Veo poll loop (`while not operation.done`) has no
maximum duration — against a provider that never reports the operation done
it never exits, for any number of checks, and never surfaces a timeout
failure.  The claim that every poll loop stops after its configured maximum
duration is false for this loop. -/
theorem C7_counterexample_veo_loop_unbounded :
    ¬ veo_poll_terminates (fun _ => false) := by
  rintro ⟨fuel, hf⟩
  rw [veo_poll_go_never_done fuel 0] at hf
  cases hf

/-- C7 (amended): the Seedance poll loop is bounded — it sleeps exactly
`POLL_INTERVAL_SECONDS` before each poll, issues at most 200 polls
(`POLL_TIMEOUT_SECONDS / POLL_INTERVAL_SECONDS`), and when the provider
never reports a terminal state it stops after its full 600-second budget by
raising a timeout failure.  (The Veo poll loop has no such bound; see the
counterexample.) -/
theorem C7_seedance_poll_bounded (statuses : Nat → AtlasAnswer)
    (hnt : ∀ i, atlas_nonterminal (statuses i) = true) :
    (seedance_poll statuses).polls ≤ 200 ∧
    (seedance_poll statuses).slept =
      POLL_INTERVAL_SECONDS * (seedance_poll statuses).polls ∧
    (seedance_poll statuses).result = .timedOut ∧
    (seedance_poll statuses).slept = 600 := by
  have hp := seedance_poll_go_polls statuses 200 0 0 0
  have hs := seedance_poll_go_slept statuses 200 0 0 0 (by rfl)
  have ht := seedance_poll_go_timeout statuses hnt 200 0 0 (by rfl)
  have h0 : POLL_INTERVAL_SECONDS * 0 = 0 := by rfl
  rw [h0] at ht
  refine ⟨by simpa using hp, hs, ht.1, ?_⟩
  show (seedance_poll_go statuses 200 0 0 0).slept = 600
  rw [hs, ht.2]
  rfl

/-- C7 witness: a provider forever reporting a non-terminal status. -/
theorem C7_witness :
    (seedance_poll (fun _ => .ok "processing" none [])).polls ≤ 200 ∧
    (seedance_poll (fun _ => .ok "processing" none [])).slept =
      POLL_INTERVAL_SECONDS *
        (seedance_poll (fun _ => .ok "processing" none [])).polls ∧
    (seedance_poll (fun _ => .ok "processing" none [])).result = .timedOut ∧
    (seedance_poll (fun _ => .ok "processing" none [])).slept = 600 :=
  C7_seedance_poll_bounded (fun _ => .ok "processing" none []) (fun _ => rfl)

/-- Helper: validity of an event trace is preserved by taking a prefix. -/
theorem rl_valid_take (cfg : RLConfig) :
    ∀ (n : Nat) (evs : List RLEvent) (s : RLState),
    rl_valid cfg s evs = true → rl_valid cfg s (List.take n evs) = true := by
  intro n
  induction n with
  | zero => intro evs s _; rfl
  | succ n ih =>
      intro evs s hv
      cases evs with
      | nil => rfl
      | cons e evs =>
          rw [List.take_succ_cons]
          unfold rl_valid at hv ⊢
          simp only [Bool.and_eq_true] at hv
          rcases hv with ⟨hok, hrest⟩
          rw [hok, ih evs (rl_step s e) hrest]
          rfl

/-- Helper: the rate-limiter invariant is preserved along any valid trace —
the semaphore accounting stays exact, the recorded call starts are pairwise
spaced by at least the pacing interval, and `_last_call` dominates them. -/
theorem rl_run_inv (cfg : RLConfig) :
    ∀ (evs : List RLEvent) (s : RLState),
    s.sem_avail + s.holders = cfg.max_concurrent →
    List.Pairwise (fun a b => b + rl_interval cfg ≤ a) s.starts →
    (∀ b ∈ s.starts, b ≤ s.last_call) →
    rl_valid cfg s evs = true →
    (rl_run cfg s evs).sem_avail + (rl_run cfg s evs).holders =
      cfg.max_concurrent ∧
    List.Pairwise (fun a b => b + rl_interval cfg ≤ a) (rl_run cfg s evs).starts ∧
    (∀ b ∈ (rl_run cfg s evs).starts, b ≤ (rl_run cfg s evs).last_call) := by
  intro evs
  induction evs with
  | nil => intro s h1 h2 h3 _; exact ⟨h1, h2, h3⟩
  | cons e evs ih =>
      intro s h1 h2 h3 hv
      unfold rl_valid at hv
      simp only [Bool.and_eq_true] at hv
      rcases hv with ⟨hok, hrest⟩
      show (rl_run cfg (rl_step s e) evs).sem_avail + _ = _ ∧ _
      cases e with
      | acq now t_end =>
          unfold rl_event_ok at hok
          simp only [Bool.and_eq_true, decide_eq_true_eq, Bool.or_eq_true,
            Bool.not_eq_true', decide_eq_false_iff_not] at hok
          rcases hok with ⟨⟨⟨havail, hlast⟩, hnt⟩, hor⟩
          have hpace : s.last_call + rl_interval cfg ≤ t_end := by
            by_cases hw : 0 < rl_wait cfg s now
            · have hsleep : now + rl_wait cfg s now ≤ t_end := by
                rcases hor with hx | hx
                · exact absurd hw hx
                · exact hx
              unfold rl_wait at hsleep
              linarith
            · push_neg at hw
              unfold rl_wait at hw
              linarith
          refine ih (rl_step s (.acq now t_end)) ?_ ?_ ?_ hrest
          · show s.sem_avail - 1 + (s.holders + 1) = cfg.max_concurrent
            omega
          · show List.Pairwise _ (t_end :: s.starts)
            refine List.pairwise_cons.mpr ⟨?_, h2⟩
            intro b hb
            have hble := h3 b hb
            linarith
          · show ∀ b ∈ t_end :: s.starts, b ≤ t_end
            intro b hb
            rcases List.mem_cons.mp hb with hbe | hbs
            · rw [hbe]
            · have hble := h3 b hbs
              have hint_nonneg : 0 ≤ rl_interval cfg := by
                unfold rl_interval
                positivity
              linarith
      | rel =>
          unfold rl_event_ok at hok
          simp only [decide_eq_true_eq] at hok
          refine ih (rl_step s .rel) ?_ ?_ ?_ hrest
          · show s.sem_avail + 1 + (s.holders - 1) = cfg.max_concurrent
            omega
          · exact h2
          · exact h3

/-- C6: for every valid acquire/release trace on one `_ImageRateLimiter`
instance (bursts included), after any prefix at most `max_concurrent` callers
simultaneously hold the limiter, and the recorded admitted call starts (the
`_last_call` timestamps) are pairwise at least `60 / max_per_minute` seconds
apart. -/
theorem C6_rate_limiter_bounds (cfg : RLConfig) (evs : List RLEvent)
    (hipm : 1 ≤ cfg.ipm)
    (hv : rl_valid cfg (rl_init cfg) evs = true) :
    (∀ n, (rl_run cfg (rl_init cfg) (List.take n evs)).holders ≤
      cfg.max_concurrent) ∧
    List.Pairwise (fun a b => b + 60 / (cfg.ipm : ℚ) ≤ a)
      (rl_run cfg (rl_init cfg) evs).starts := by
  have hint : rl_interval cfg = 60 / (cfg.ipm : ℚ) := by
    unfold rl_interval
    rw [Nat.max_eq_left hipm]
  constructor
  · intro n
    have hvn := rl_valid_take cfg n evs (rl_init cfg) hv
    have hinv := rl_run_inv cfg (List.take n evs) (rl_init cfg)
      (by show cfg.max_concurrent + 0 = cfg.max_concurrent; omega)
      List.Pairwise.nil (by intro b hb; cases hb) hvn
    omega
  · have hinv := rl_run_inv cfg evs (rl_init cfg)
      (by show cfg.max_concurrent + 0 = cfg.max_concurrent; omega)
      List.Pairwise.nil (by intro b hb; cases hb) hv
    rw [← hint]
    exact hinv.2.1

/-- C6 witness: `max_concurrent = 2`, `max_per_minute = 30` (2-second
spacing), a burst of three acquisitions with releases. -/
theorem C6_witness :
    (rl_run ⟨2, 30⟩ (rl_init ⟨2, 30⟩)
      (List.take 3 [.acq 0 2, .acq 2 4, .rel, .acq 5 7, .rel, .rel])).holders ≤ 2 ∧
    List.Pairwise (fun a b => b + 60 / ((30 : Nat) : ℚ) ≤ a)
      (rl_run ⟨2, 30⟩ (rl_init ⟨2, 30⟩)
        [.acq 0 2, .acq 2 4, .rel, .acq 5 7, .rel, .rel]).starts :=
  ⟨(C6_rate_limiter_bounds ⟨2, 30⟩ [.acq 0 2, .acq 2 4, .rel, .acq 5 7, .rel, .rel]
      (by decide)
      (by norm_num [rl_valid, rl_event_ok, rl_step, rl_init, rl_wait,
        rl_interval])).1 3,
   (C6_rate_limiter_bounds ⟨2, 30⟩ [.acq 0 2, .acq 2 4, .rel, .acq 5 7, .rel, .rel]
      (by decide)
      (by norm_num [rl_valid, rl_event_ok, rl_step, rl_init, rl_wait,
        rl_interval])).2⟩
